import Mathlib

/-!
Shallow embedding of the option resolution engine of src/src/parser.ts
(the Parser class: registration/normalization of option definitions,
command-line scanning, environment/default merging, type coercion,
validator and handler chain execution, and the parse cycle), together
with theorems settling the frozen claims about it.

JavaScript records keyed by strings are modelled as insertion-ordered
association lists (assignment to an existing key overwrites in place,
new keys append at the end; the JS reordering of integer-like keys is
not modelled, option names in this repository are not numeric).  The
`null`/`{}` distinction of the error maps is collapsed to the empty
list: the source only ever observes these through emptiness tests.
-/

namespace CliParser

/-- Insertion-ordered string-keyed map, the model of a JS object. -/
abbrev AList (α : Type) := List (String × α)

/-- Key lookup, first (and only) occurrence. -/
def getk {α : Type} (m : AList α) (k : String) : Option α :=
  match m.find? (fun p => p.1 == k) with
  | some p => some p.2
  | none => none

/-- Object.hasOwn. -/
def hasOwnK {α : Type} (m : AList α) (k : String) : Bool :=
  (m.find? (fun p => p.1 == k)).isSome

/-- Property assignment: overwrite in place, or append a new key. -/
def setk {α : Type} (m : AList α) (k : String) (v : α) : AList α :=
  if hasOwnK m k then m.map (fun p => if p.1 == k then (k, v) else p)
  else m ++ [(k, v)]

/-- The JavaScript values the engine stores: strings, (integer) numbers,
booleans, arrays, and undefined.  `null` never reaches the value maps of
the source (nothing produces it), so it is not represented. -/
inductive JSValue where
  | str : String → JSValue
  | num : Int → JSValue
  | bool : Bool → JSValue
  | list : List JSValue → JSValue
  | undefined : JSValue

/-- JS truthiness of a modelled value (arrays are always truthy, even empty). -/
def jsTruthy : JSValue → Bool
  | .str s => s != ""
  | .num n => n != 0
  | .bool b => b
  | .list _ => true
  | .undefined => false

mutual
/-- ToString of a value as an element of Array.prototype.join: undefined
joins as the empty string. -/
def jsElemString : JSValue → String
  | .str s => s
  | .num n => toString n
  | .bool b => cond b "true" "false"
  | .list l => jsJoinList l
  | .undefined => ""

/-- Array.prototype.toString = join(","). -/
def jsJoinList : List JSValue → String
  | [] => ""
  | [x] => jsElemString x
  | x :: y :: xs => jsElemString x ++ "," ++ jsJoinList (y :: xs)
end

/-- JS ToString of a modelled value. -/
def jsToString : JSValue → String
  | .undefined => "undefined"
  | v => jsElemString v

/-- TRUTHY_STRINGS of the source. -/
def TRUTHY_STRINGS : List String :=
  ["true", "yes", "y", "on", "1", "high", "h", "da", "ja", "oui", "si", "sí"]

/-- FALSEY_STRINGS of the source. -/
def FALSEY_STRINGS : List String :=
  ["false", "no", "n", "off", "0", "low", "l", "nyet", "niet", "geen", "nein", "non"]

/-- The four declared option types (ArgTypeName).  The source's
argTypeName throws on any other string; claims only register valid
names, so the thrown branch is outside the modelled fragment. -/
inductive ArgTypeName where
  | boolean | integer | string | list
  deriving Repr, DecidableEq

/-- The arg field as stored: either a switch array, or a plain string
(the two reserved modes 'positional' and '--', or an invalid string the
normalizer flags but keeps). -/
inductive ArgSpecRaw where
  | switches : List String → ArgSpecRaw
  | strArg : String → ArgSpecRaw
  deriving Repr, DecidableEq

/-- String.prototype.includes / Array.prototype.includes as used on the
first chain entry's arg field when matching a token's switch part. -/
def chStarts : List Char → List Char → Bool
  | [], _ => true
  | _ :: _, [] => false
  | a :: as, b :: bs => a == b && chStarts as bs

/-- Substring test: does the second list contain the first? -/
def chSub : List Char → List Char → Bool
  | n, [] => n.isEmpty
  | n, h :: t => chStarts n (h :: t) || chSub n t

/-- `arg?.includes(argSwitch)`: list membership for a switch array, and a
substring test when arg is one of the plain-string modes (JS
String.prototype.includes). -/
def argIncludes : ArgSpecRaw → String → Bool
  | .switches l, s => l.contains s
  | .strArg t, s => chSub s.data t.data

/-- JS truthiness of a stored arg field (arrays are truthy even empty). -/
def argJsTruthy : ArgSpecRaw → Bool
  | .switches _ => true
  | .strArg s => s != ""

/-- The normalized env field: Object.assign gives it the default `[]`
(an empty array — truthy in JS, length 0, and coerced to the property
key "" when used as one) unless the definition supplies a string. -/
inductive EnvField where
  | emptyArr : EnvField
  | name : String → EnvField
  deriving Repr, DecidableEq

/-- JS truthiness of the env field ([] is truthy, "" is not). -/
def envTruthyF : EnvField → Bool
  | .emptyArr => true
  | .name s => s != ""

/-- The .length read used by the validator stage's required message. -/
def envLenF : EnvField → Nat
  | .emptyArr => 0
  | .name s => s.length

/-- The string the env field coerces to as a property key or inside a
template literal (String([]) = ""). -/
def envKeyF : EnvField → String
  | .emptyArr => ""
  | .name s => s

/-- A raw value map (normalizedValues): option name to untyped value. -/
abbrev RawMap := AList JSValue

/-- What a handler's return value looks like to the executor.  `nextSym`
is the exported `next` symbol; `otherSym` is any other primitive symbol
(which isSymbolObject does NOT detect); `symObject` is a boxed Symbol
object (the only thing isSymbolObject detects), carrying its
description; `result` is any other object, reduced to the reads the
executor performs: `.value` (undefined when absent) and the truthiness
of `.next`.  An object of unrecognized shape is thus `result .undefined
false`. -/
inductive HandlerReturn where
  | nextSym : HandlerReturn
  | otherSym : String → HandlerReturn
  | symObject : String → HandlerReturn
  | result : JSValue → Bool → HandlerReturn

/-- What a validator's return value looks like to the executor: the
`next` symbol, a string message, or anything else (null, the documented
"valid" verdict, and any other non-string non-next value behave
identically there). -/
inductive ValidatorReturn where
  | nextSym : ValidatorReturn
  | msg : String → ValidatorReturn
  | nullv : ValidatorReturn

/-- Handler: (value, name, normalizedValues) to a return value. -/
abbrev Handler := JSValue → String → RawMap → HandlerReturn

/-- Validator: (value, name, normalizedValues) to a return value. -/
abbrev Validator := JSValue → String → RawMap → ValidatorReturn

/-- An option definition as passed to addOption.  Absent optional fields
are `none` / `.undefined` / `[]`; a single handler or validator function is
the one-element list (the source wraps both forms identically).  An
absent name is the empty string (`!def.name` treats both alike). -/
structure OptionsDef where
  arg : Option ArgSpecRaw
  default : JSValue
  description : Option String
  env : Option String
  handler : List Handler
  name : String
  required : Bool
  silent : Bool
  type : Option ArgTypeName
  validator : List Validator

/-- A blank definition, for building concrete examples with `with`. -/
def baseDef : OptionsDef :=
  ⟨none, .undefined, none, none, [], "", false, false, none, []⟩

/-- A NormalizedOptionsDef. -/
structure NDef where
  arg : ArgSpecRaw
  default : JSValue
  env : EnvField
  handler : List Handler
  name : String
  required : Bool
  silent : Bool
  type : ArgTypeName
  validator : List Validator

/-- ParserOptions (argv already sliced, env snapshot, vocabularies). -/
structure ParserOptions where
  argv : List String
  env : AList String
  falsey : List String
  truthy : List String

/-- ParserOptions with the default vocabularies. -/
def defaultPO (argv : List String) (env : AList String) : ParserOptions :=
  ⟨argv, env, FALSEY_STRINGS, TRUTHY_STRINGS⟩

/-- JS truthiness of an input env field (absent and "" are falsy). -/
def envInTruthy : Option String → Bool
  | none => false
  | some s => s != ""

/-- Locale-independent ASCII model of toLocaleLowerCase. -/
def jsToLower (s : String) : String := ⟨s.data.map Char.toLower⟩

/-- Decimal digit run to a Nat. -/
def decDigitsVal (l : List Char) : Nat :=
  l.foldl (fun a c => a * 10 + (c.toNat - 48)) 0

/-- Hex digit to its value. -/
def hexDigitVal (c : Char) : Nat :=
  if c.isDigit then c.toNat - 48
  else if 'a' ≤ c ∧ c ≤ 'f' then c.toNat - 87
  else c.toNat - 55

/-- Is the character a hexadecimal digit? -/
def isHexDigitCh (c : Char) : Bool :=
  c.isDigit || ('a' ≤ c && c ≤ 'f') || ('A' ≤ c && c ≤ 'F')

/-- Hex digit run to a Nat. -/
def hexDigitsVal (l : List Char) : Nat :=
  l.foldl (fun a c => a * 16 + hexDigitVal c) 0

/-- Number.parseInt with no radix argument: skip leading whitespace, an
optional sign, an optional 0x/0X hex prefix, then consume leading
digits; none means NaN. -/
def jsParseInt (s : String) : Option Int :=
  let cs := s.data.dropWhile (fun c => c.isWhitespace)
  let signAndRest : Int × List Char :=
    match cs with
    | '-' :: r => (-1, r)
    | '+' :: r => (1, r)
    | r => (1, r)
  match signAndRest.2 with
  | '0' :: 'x' :: r =>
    let ds := r.takeWhile isHexDigitCh
    if ds.isEmpty then none else some (signAndRest.1 * (hexDigitsVal ds : Int))
  | '0' :: 'X' :: r =>
    let ds := r.takeWhile isHexDigitCh
    if ds.isEmpty then none else some (signAndRest.1 * (hexDigitsVal ds : Int))
  | r =>
    let ds := r.takeWhile Char.isDigit
    if ds.isEmpty then none else some (signAndRest.1 * (decDigitsVal ds : Int))

/-- A line terminator for the JS regex dot (which does not match these). -/
def isLineTerm (c : Char) : Bool :=
  c == '\n' || c == '\r' || c == '\u2028' || c == '\u2029'

/-- Character-level model of the replacement in `arg.replace(/=.*/, '')`:
remove the first '=' and everything after it up to (not including) the
first line terminator; no '=' leaves the string unchanged. -/
def replaceEqStarCh : List Char → List Char
  | [] => []
  | c :: cs =>
    if c == '=' then cs.dropWhile (fun d => !isLineTerm d)
    else c :: replaceEqStarCh cs

/-- The switch part of a token: arg.replace of the first-equals regex. -/
def strReplaceEqStar (s : String) : String := ⟨replaceEqStarCh s.data⟩

/-- Drop a line's prefix up to and including its last '='. -/
def dropThroughLastEq (line : List Char) : List Char :=
  (line.reverse.takeWhile (fun d => d != '=')).reverse

/-- Character-level model of the replacement in `arg.replace(/.*=/, '')`:
the leftmost-longest match runs from the start of the first
terminator-free segment containing an '=' through that segment's last
'='; that match is removed and everything else is kept. -/
def replaceStarEqCh : List Char → List Char
  | [] => []
  | c :: cs =>
    let line := (c :: cs).takeWhile (fun d => !isLineTerm d)
    if line.contains '=' then dropThroughLastEq line ++ (c :: cs).drop line.length
    else c :: replaceStarEqCh cs

/-- The inline value of a token: arg.replace of the greedy up-to-equals
regex (note: greedy, so it strips through the LAST '='). -/
def strReplaceStarEq (s : String) : String := ⟨replaceStarEqCh s.data⟩

/-- The key under which normalizeOptionDef records a definition error:
`def.name || '_no_name'`. -/
def errKey (d : OptionsDef) : String :=
  if d.name = "" then "_no_name" else d.name

/-- `def.type || (typeof def.arg === 'string' && ['--','positional']
.includes(def.arg) ? listArg : stringArg)`. -/
def argTypeNameOf (t : Option ArgTypeName) (arg : Option ArgSpecRaw) : ArgTypeName :=
  match t with
  | some ty => ty
  | none =>
    if arg = some (.strArg "--") ∨ arg = some (.strArg "positional")
    then .list else .string

/-- The "some checks." and "more checks." sections of normalizeOptionDef:
each `err` assigns into the permanent normalization-error map under
`def.name || '_no_name'`, later checks overwriting earlier ones for the
same key. -/
def nodChecks (errs0 : AList String) (d : OptionsDef) : AList String :=
  let put := fun (errs : AList String) (msg : String) => setk errs (errKey d) msg
  -- some checks.
  let errs := if d.name = "" then put errs0 "Option definition must have a name." else errs0
  let errs :=
    match d.arg with
    | some (.strArg s) =>
      if s ≠ "positional" ∧ s ≠ "--"
      then put errs "Option definition must have a valid argument." else errs
    | _ => errs
  let errs :=
    if d.required ∧ jsTruthy d.default
    then put errs "Required option cannot have a default." else errs
  let errs :=
    if d.arg = some (.strArg "positional") ∧ envInTruthy d.env
    then put errs "Positional arguments cannot have an environment variable." else errs
  let argType := argTypeNameOf d.type d.arg
  -- more checks.
  let errs :=
    if d.arg = some (.strArg "positional") ∧ argType ≠ .list
    then put errs "Positional arguments must be lists." else errs
  let errs :=
    if d.arg = some (.strArg "--") ∧ envInTruthy d.env
    then put errs "Double-dash arguments cannot have an environment variable." else errs
  if d.arg = some (.strArg "--") ∧ argType ≠ .list
  then put errs "Double-dash arguments must be lists." else errs

/-- The "ensure default values are the right type" section of
normalizeOptionDef: a switch on def.type, the declared field (no
declared type means no check), guarded by the default's truthiness; a
string default of a list option is wrapped into a one-element array. -/
def nodDefaultCheck (po : ParserOptions) (errs : AList String) (d : OptionsDef) :
    AList String × JSValue :=
  let put := fun (errs : AList String) (msg : String) => setk errs (errKey d) msg
  if jsTruthy d.default then
      match d.type with
      | some .boolean =>
        -- a truthy non-boolean default errs only when it is a string
        -- outside both vocabularies (compared verbatim, not lowercased)
        (match d.default with
         | .str s =>
           if !(po.truthy.contains s || po.falsey.contains s)
           then put errs "Boolean options must have a boolean default." else errs
         | _ => errs, d.default)
      | some .integer =>
        -- a truthy non-number default errs only when it is a string with
        -- !Number.parseInt(s) (NaN or zero)
        (match d.default with
         | .str s =>
           (match jsParseInt s with
            | none => put errs "Integer options must have a number default."
            | some n =>
              if n = 0 then put errs "Integer options must have a number default."
              else errs)
         | _ => errs, d.default)
      | some .list =>
        (match d.default with
         | .str s => (errs, .list [.str s])  -- a string default is wrapped
         | .list l =>
           (if l.all (fun v => match v with | .str _ => true | _ => false)
            then errs
            else put errs "List options default array members must all be string",
            d.default)
         | _ => (put errs "List options must have a string or a string array default.",
                 d.default))
      | some .string =>
        (match d.default with
         | .str _ => (errs, d.default)
         | _ => (put errs "String options must have a string default.", d.default))
      | none => (errs, d.default)
    else (errs, d.default)

/-- normalizeOptionDef for a single definition: the registration checks,
the default-type check (with list-default wrapping), then the normalized
record built via Object.assign over the defaults. -/
def normalizeOptionDef (po : ParserOptions) (errs0 : AList String) (d : OptionsDef) :
    AList String × NDef :=
  let errs := nodChecks errs0 d
  let errsDflt := nodDefaultCheck po errs d
  (errsDflt.1,
   { arg := d.arg.getD (.switches [])
     default := errsDflt.2
     env := match d.env with | none => .emptyArr | some s => .name s
     handler := d.handler
     name := d.name
     required := d.required
     silent := d.silent
     type := argTypeNameOf d.type d.arg
     validator := d.validator })

/-- The Parser instance state. -/
structure ParserState where
  normalizationErrors : AList String
  errorValues : AList String
  isParsed : Bool
  hasNewOptions : Bool
  options : AList (List NDef)
  optionSequence : List String
  parserOptions : ParserOptions
  normalizedValues : Option RawMap
  values : AList JSValue

/-- checkOptions: cross-option structural checks run each cycle. -/
def checkOptions (options : AList (List NDef)) (ev : AList String) : AList String :=
  let positionalCount :=
    (options.filter (fun p =>
      match p.2 with
      | d :: _ => d.arg == .strArg "positional"
      | [] => false)).length
  let ev :=
    if positionalCount > 1
    then setk ev "_positional" "Cannot have more than one positional argument."
    else ev
  let doubleDashCount :=
    (options.filter (fun p =>
      match p.2 with
      | d :: _ => d.arg == .strArg "--"
      | [] => false)).length
  if doubleDashCount > 1
  then setk ev "_double_dash" "Cannot have more than one '--' argument."
  else ev

/-- argv[i] as the JS read yields it: a string, or undefined past the end. -/
def jsIndex (argv : List String) (i : Nat) : JSValue :=
  match argv.get? i with
  | some s => .str s
  | none => .undefined

/-- One step of the scanner's inner loop over Object.keys(this.options):
given the accumulated (foundOption, argIdx, normalizedValues), try one
registry entry's first chain definition against the token.  A match with
no inline value and a non-boolean type pre-increments argIdx and takes
the next token (undefined past the end); list options append, all others
overwrite. -/
def scanMatchStep (argv : List String) (arg argSwitch : String)
    (acc : Bool × Nat × RawMap) (entry : String × List NDef) : Bool × Nat × RawMap :=
  match entry.2 with
  | [] => acc  -- the ?.length guard; chains are never empty in reachable states
  | optionDef :: _ =>
    if argIncludes optionDef.arg argSwitch then
      let iv : Nat × JSValue :=
        if arg = argSwitch then
          if optionDef.type = .boolean then (acc.2.1, .bool true)
          else (acc.2.1 + 1, jsIndex argv (acc.2.1 + 1))
        else (acc.2.1, .str (strReplaceStarEq arg))
      let nv :=
        if optionDef.type = .list then
          match getk acc.2.2 entry.1 with
          | some (.list l) => setk acc.2.2 entry.1 (.list (l ++ [iv.2]))
          | _ => setk acc.2.2 entry.1 (.list [iv.2])
          -- missing or falsy entries are replaced by a fresh array; a
          -- truthy non-array would make the source's push throw
          -- (unreachable: the scanner only ever stores arrays here)
        else setk acc.2.2 entry.1 iv.2
      (true, iv.1, nv)
    else acc

/-- The first registry key whose first chain entry is the positional
mode. -/
def positionalKey (options : AList (List NDef)) : Option String :=
  (options.find? (fun p =>
    match p.2 with
    | d :: _ => d.arg == .strArg "positional"
    | [] => false)).map (fun p => p.1)

/-- The first registry key whose first chain entry is the '--' mode. -/
def doubleDashKey (options : AList (List NDef)) : Option String :=
  (options.find? (fun p =>
    match p.2 with
    | d :: _ => d.arg == .strArg "--"
    | [] => false)).map (fun p => p.1)

/-- JS truthiness filtering of a found key (an option named "" is falsy
in the `if (option)` tests around the positional/double-dash sinks). -/
def truthyKey : Option String → Option String
  | some s => if s = "" then none else some s
  | none => none

/-- Append a token to a list-valued sink entry (the `||= []` then push
pattern). -/
def pushSink (nv : RawMap) (k : String) (arg : String) : RawMap :=
  match getk nv k with
  | some (.list l) => setk nv k (.list (l ++ [.str arg]))
  | _ => setk nv k (.list [.str arg])

/-- The scanner's main token loop.  Fuel bounds the iteration count (the
index strictly increases each pass, so argv.length + 1 is always
enough).  Returns the raw map, the error map and the index at which the
loop stopped ('--' breaks after stepping past itself). -/
def scanLoop (options : AList (List NDef)) (argv : List String) :
    Nat → Nat → RawMap → AList String → RawMap × AList String × Nat
  | 0, i, nv, ev => (nv, ev, i)
  | fuel + 1, i, nv, ev =>
    match argv.get? i with
    | none => (nv, ev, i)
    | some arg =>
      if arg = "--" then (nv, ev, i + 1)
      else
        let argSwitch := strReplaceEqStar arg
        let step := options.foldl (scanMatchStep argv arg argSwitch) (false, i, nv)
        let nvev : RawMap × AList String :=
          if step.1 then (step.2.2, ev)
          else
            match truthyKey (positionalKey options) with
            | some k => (pushSink step.2.2 k arg, ev)
            | none =>
              (step.2.2,
               setk ev argSwitch ("Unknown command line option \"" ++ argSwitch ++ "\""))
        scanLoop options argv fuel (step.2.1 + 1) nvev.1 nvev.2

/-- After the main loop: unclaimed trailing tokens go to the '--' sink,
else the positional sink, else nowhere (JS `find(...) || find(...)` with
the truthiness of the found key). -/
def trailingPass (options : AList (List NDef)) (argv : List String)
    (startIdx : Nat) (nv : RawMap) : RawMap :=
  match truthyKey (doubleDashKey options) <|> truthyKey (positionalKey options) with
  | none => nv
  | some k => (argv.drop startIdx).foldl (fun nv arg => pushSink nv k arg) nv

/-- The missing-required message built during the environment pass.  The
env field's JS truthiness drives both parts (the normalization default
[] is truthy and prints as the empty string). -/
def missingRequiredScanMsg (d : NDef) : String :=
  let m := "Missing required argument in "
  let m :=
    if argJsTruthy d.arg then
      m ++ "command line " ++
        (match d.arg with
         | .switches l => String.intercalate ", " (l.map (fun o => "`" ++ o ++ "`"))
         | .strArg s => s) ++
        (if envTruthyF d.env then " or " else "")
    else m
  let m := if envTruthyF d.env then m ++ "environment variable " ++ envKeyF d.env else m
  m ++ "."

/-- The environment pass: for each defined option (in registry order)
with no scanned value, adopt the environment binding, else a truthy
default, and flag required options not found in the environment. -/
def envPass (po : ParserOptions) :
    List (String × List NDef) → RawMap → AList String → RawMap × AList String
  | [], nv, ev => (nv, ev)
  | (key, defs) :: rest, nv, ev =>
    match defs with
    | [] => envPass po rest nv ev  -- "should be impossible, ... ignore it"
    | optionDef :: _ =>
      if hasOwnK nv key then envPass po rest nv ev
      else
        -- `if (this.parserOptions.env)` is modelled as always true: the
        -- env snapshot is a materialized object here
        let foundInEnv := envTruthyF optionDef.env && hasOwnK po.env (envKeyF optionDef.env)
        let nv :=
          if foundInEnv then
            let value := (getk po.env (envKeyF optionDef.env)).getD ""
            if optionDef.type = .list then setk nv optionDef.name (.list [.str value])
            else setk nv optionDef.name (.str value)
          else nv
        let nv :=
          if !foundInEnv && jsTruthy optionDef.default
          then setk nv optionDef.name optionDef.default else nv
        let ev :=
          if !foundInEnv && optionDef.required
          then setk ev optionDef.name (missingRequiredScanMsg optionDef) else ev
        envPass po rest nv ev

/-- Coerce one gathered value to its declared type.  Booleans lowercase
a string value and compare to the vocabularies; integers go through
parseInt of the value's ToString (the error template interpolates the
variable after the NaN reassignment, hence the literal "NaN"); strings
and lists pass through. -/
def coerceOne (options : AList (List NDef)) (po : ParserOptions)
    (acc : RawMap × AList String) (key : String) : RawMap × AList String :=
  match getk options key with
  | none => acc  -- unreachable: every raw-map key is a registry key
  | some [] => acc  -- the `length < 1` guard, "should be impossible"
  | some (optionDef :: _) =>
    let value := (getk acc.1 key).getD .undefined
    match optionDef.type with
    | .boolean =>
      (match value with
       | .str s =>
         let lc := jsToLower s
         if po.truthy.contains lc then (setk acc.1 key (.bool true), acc.2)
         else if po.falsey.contains lc then (setk acc.1 key (.bool false), acc.2)
         else (acc.1,
               setk acc.2 key
                 ("Could not parse boolean argument \"" ++ key ++ "\" value \"" ++ s ++ "\""))
       | _ => (setk acc.1 key value, acc.2))
    | .integer =>
      (match jsParseInt (jsToString value) with
       | some n => (setk acc.1 key (.num n), acc.2)
       | none =>
         (acc.1,
          setk acc.2 key ("Could not parse integer argument \"" ++ key ++ "\" value \"NaN\"")))
    | .list => (setk acc.1 key value, acc.2)
    | .string => (setk acc.1 key value, acc.2)
    -- the source's default branch (unknown type) is unrepresentable:
    -- ArgTypeName has exactly the four declared types

/-- The coercion pass over every gathered key (the key set is fixed
during the pass, so folding over the initial keys is the snapshot
Object.keys takes). -/
def coercePass (options : AList (List NDef)) (po : ParserOptions)
    (nv : RawMap) (ev : AList String) : RawMap × AList String :=
  (nv.map (fun p => p.1)).foldl (coerceOne options po) (nv, ev)

/-- normalizeOptionValues: scan the command line (skipped entirely for an
empty argv), assign trailing tokens, run the environment pass and the
coercion pass, then discard the whole raw map if any error (of any
stage, including pre-existing permanent ones) is present. -/
def normalizeOptionValues (options : AList (List NDef)) (po : ParserOptions)
    (ev : AList String) : Option RawMap × AList String :=
  let scanned : RawMap × AList String :=
    if po.argv.isEmpty then ([], ev)
    else
      let s := scanLoop options po.argv (po.argv.length + 1) 0 [] ev
      (trailingPass options po.argv s.2.2 s.1, s.2.1)
  let enved := envPass po options scanned.1 scanned.2
  let coerced := coercePass options po enved.1 enved.2
  if coerced.2.isEmpty then (some coerced.1, coerced.2) else (none, coerced.2)

/-- The missing-required message built by the validation stage, with the
0/1/2/many switch enumeration; `arg.slice(-1)` is a one-element array
that interpolates as its sole member. -/
def missingRequiredValidateMsg (d : NDef) : String :=
  let m := "Missing required"
  let m :=
    if argJsTruthy d.arg then
      m ++
        (match d.arg with
         | .switches l =>
           match l with
           | [] => " argument"
           | [a] => " argument \"" ++ a ++ "\""
           | [a, b] => " arguments \"" ++ a ++ "\" or \"" ++ b ++ "\""
           | _ =>
             " arguments \"" ++ String.intercalate "\", \"" l.dropLast ++
               "\", or \"" ++ String.intercalate "," (l.drop (l.length - 1)) ++ "\""
         | .strArg s => " argument \"" ++ s ++ "\"") ++
        (if envTruthyF d.env && envLenF d.env > 0 then " or" else "")
    else m
  let m :=
    if envTruthyF d.env && envLenF d.env > 0
    then m ++ " environment variable \"" ++ envKeyF d.env ++ "\"" else m
  m ++ "."

/-- Run one chain entry's validator functions.  The Bool is true when the
walk hit a non-defer verdict: the source then breaks the label on the
OUTER loop (validationSequence), ending validation of every remaining
option name, after recording the message if the verdict was a string. -/
def runValidators (nv : RawMap) (name : String) :
    AList String → List Validator → AList String × Bool
  | ev, [] => (ev, false)
  | ev, v :: rest =>
    match v ((getk nv name).getD .undefined) name nv with
    | .nextSym => runValidators nv name ev rest
    | .msg m => (setk ev name m, true)
    | .nullv => (ev, true)

/-- Walk one option's chain entries: the required-value check first (its
failure records a message and moves to the next option NAME, i.e. stops
this chain without stopping the whole pass), then the entry's
validators (whose non-defer verdict stops the whole pass: Bool true). -/
def validateEntries (nv : RawMap) :
    AList String → List NDef → AList String × Bool
  | ev, [] => (ev, false)
  | ev, d :: rest =>
    if d.required && (!(hasOwnK nv d.name) ||
        (match getk nv d.name with | some .undefined => true | _ => false))
    then (setk ev d.name (missingRequiredValidateMsg d), false)
    else
      let r := runValidators nv d.name ev d.validator
      if r.2 then r else validateEntries nv r.1 rest

/-- validateOptionValues' loop over optionSequence with its seen-set:
each name once, in first-seen order, names already carrying an error
skipped; a true flag from the chain walk ends the entire pass. -/
def validateSeq (options : AList (List NDef)) (nv : RawMap) :
    List String → List String → AList String → AList String
  | [], _, ev => ev
  | name :: rest, seen, ev =>
    if seen.contains name then validateSeq options nv rest seen ev
    else
      if hasOwnK ev name then validateSeq options nv rest (name :: seen) ev
      else
        match getk options name with
        | none => validateSeq options nv rest (name :: seen) ev
          -- unreachable: every sequenced name owns a chain
        | some defs =>
          let r := validateEntries nv ev defs
          if r.2 then r.1 else validateSeq options nv rest (name :: seen) r.1

/-- validateOptionValues. -/
def validateOptionValues (options : AList (List NDef)) (seq : List String)
    (nv : RawMap) (ev : AList String) : AList String :=
  validateSeq options nv seq [] ev

/-- The implicit terminal handler appended to every option's chain:
store the current value and stop. -/
def terminalHandler : Handler := fun value _ _ => .result value false

/-- The normalized definition the source builds on the fly for the
terminal handler (its normalizeOptionDef call's error side effect is
dropped: handling only runs on error-free cycles, where every sequenced
name is a nonempty string). -/
def terminalNDef (po : ParserOptions) (name : String) : NDef :=
  (normalizeOptionDef po []
    { baseDef with name := name, handler := [terminalHandler] }).2

/-- Run one chain entry's handler list.  The Bool is true when handling
of this option stopped (a stored value or a handler-protocol error):
the source's `break handlerSequence` skips the remaining entries of THIS
option only.  A primitive symbol other than `next` escapes the
isSymbolObject guard; the executor then reads `.value`/`.next` off it
(both undefined), so undefined is stored silently. -/
def runHandlers (nv : RawMap) (name : String) :
    List Handler → JSValue → AList String → AList JSValue →
      AList String × AList JSValue × Bool
  | [], _, ev, values => (ev, values, false)
  | h :: rest, lastResult, ev, values =>
    match h lastResult name nv with
    | .nextSym => runHandlers nv name rest lastResult ev values
    | .symObject desc =>
      (setk ev name
        ("Unknown handler return symbol for option \"" ++ name ++ "\": Symbol(" ++
          desc ++ ")"),
       values, true)
    | .otherSym _ => (ev, setk values name .undefined, true)
    | .result v nxt =>
      if nxt then runHandlers nv name rest v ev values
      else (ev, setk values name v, true)

/-- Walk an option's chain entries for handling.  Each entry re-seeds
the current value from the raw map (`let lastResult = this
.normalizedValues[optionDef.name]` sits inside the per-entry loop), so a
value carried by continue=true does NOT cross an entry boundary. -/
def handleEntries (nv : RawMap) :
    List NDef → AList String → AList JSValue → AList String × AList JSValue
  | [], ev, values => (ev, values)
  | d :: rest, ev, values =>
    let r := runHandlers nv d.name d.handler ((getk nv d.name).getD .undefined) ev values
    if r.2.2 then (r.1, r.2.1) else handleEntries nv rest r.1 r.2.1

/-- handleOptionValues' loop over optionSequence with its seen-set: each
option's stored chain concatenated with the terminal entry. -/
def handleSeq (options : AList (List NDef)) (po : ParserOptions) (nv : RawMap) :
    List String → List String → AList String → AList JSValue →
      AList String × AList JSValue
  | [], _, ev, values => (ev, values)
  | name :: rest, seen, ev, values =>
    if seen.contains name then handleSeq options po nv rest seen ev values
    else
      let entries := (getk options name).getD [] ++ [terminalNDef po name]
      let r := handleEntries nv entries ev values
      handleSeq options po nv rest (name :: seen) r.1 r.2

/-- handleOptionValues. -/
def handleOptionValues (options : AList (List NDef)) (po : ParserOptions)
    (seq : List String) (nv : RawMap) (ev : AList String) (values : AList JSValue) :
    AList String × AList JSValue :=
  handleSeq options po nv seq [] ev values

/-- hasErrors: a non-empty error map. -/
def hasErrorsL (ev : AList String) : Bool := !ev.isEmpty

/-- parse(): reset the error map to a copy of the permanent
normalization errors and clear the values, run the structural check, the
scan/coercion stage, then — only on a surviving raw map — validation
and, only error-free, handling.  Freezing is a no-op in the model.  The
source never assigns its isParsed flag, so the model leaves it
untouched as well. -/
def parseP (st : ParserState) : ParserState × Bool :=
  let ev := st.normalizationErrors
  let ev := checkOptions st.options ev
  let nvev := normalizeOptionValues st.options st.parserOptions ev
  match nvev.1 with
  | some nv =>
    let ev := validateOptionValues st.options st.optionSequence nv nvev.2
    let evvals : AList String × AList JSValue :=
      if hasErrorsL ev then (ev, [])
      else handleOptionValues st.options st.parserOptions st.optionSequence nv ev []
    ({ st with errorValues := evvals.1, values := evvals.2,
               normalizedValues := some nv, hasNewOptions := false },
     !hasErrorsL evvals.1)
  | none =>
    ({ st with errorValues := nvev.2, values := [],
               normalizedValues := none, hasNewOptions := false },
     !hasErrorsL nvev.2)

/-- reparseIfNecessary. -/
def reparseIfNecessary (st : ParserState) : ParserState :=
  if st.isParsed && st.hasNewOptions then (parseP st).1 else st

/-- addOption: normalize (accumulating permanent errors), append to the
name's chain, append the name to the sequence, mark new options, and
optionally reparse. -/
def addOption (st : ParserState) (d : OptionsDef) (reparse : Bool) : ParserState :=
  let en := normalizeOptionDef st.parserOptions st.normalizationErrors d
  let options :=
    match getk st.options d.name with
    | some l => setk st.options d.name (l ++ [en.2])
    | none => st.options ++ [(d.name, [en.2])]
  let st :=
    { st with normalizationErrors := en.1, options := options,
              optionSequence := st.optionSequence ++ [d.name],
              hasNewOptions := true }
  if reparse then reparseIfNecessary st else st

/-- addOptions: add each definition without reparsing, then one
reparseIfNecessary at the end. -/
def addOptions (st : ParserState) (defs : List OptionsDef) : ParserState :=
  reparseIfNecessary (defs.foldl (fun s d => addOption s d false) st)

/-- The constructor: merge the parser options over the process defaults
(modelled as taking them whole) and add the initial definitions. -/
def mkParser (po : ParserOptions) (defs : List OptionsDef) : ParserState :=
  addOptions ⟨[], [], false, true, [], [], po, none, []⟩ defs

/-! ## Concrete registries and states used to settle the claims -/

/-- A validator that always rejects with the given message. -/
def rejectWith (m : String) : Validator := fun _ _ _ => .msg m

/-- A validator that always returns null (the documented "valid" verdict). -/
def acceptNull : Validator := fun _ _ _ => .nullv

/-- Two string options whose validators both reject. -/
def c1RejectState : ParserState :=
  mkParser (defaultPO ["-a=1", "-b=2"] [])
    [{ baseDef with name := "a", arg := some (.switches ["-a"]),
                    type := some .string, validator := [rejectWith "bad a"] },
     { baseDef with name := "b", arg := some (.switches ["-b"]),
                    type := some .string, validator := [rejectWith "bad b"] }]

/-- First option's validator accepts with null, second's rejects. -/
def c1NullState : ParserState :=
  mkParser (defaultPO ["-a=1", "-b=2"] [])
    [{ baseDef with name := "a", arg := some (.switches ["-a"]),
                    type := some .string, validator := [acceptNull] },
     { baseDef with name := "b", arg := some (.switches ["-b"]),
                    type := some .string, validator := [rejectWith "bad b"] }]

/-- One satisfied string option; parsed once. -/
def c2Parsed : ParserState :=
  (parseP (mkParser (defaultPO ["-a", "v"] [])
    [{ baseDef with name := "a", arg := some (.switches ["-a"]),
                    type := some .string }])).1

/-- A required option with no source, added (with the default reparse
behaviour) after the first completed parse. -/
def c2AfterAdd : ParserState :=
  addOption c2Parsed
    { baseDef with name := "req", arg := some (.switches ["-r"]), required := true }
    true

/-- The option definitions registered before the first '=' split test. -/
def c3CEState : ParserState :=
  mkParser (defaultPO ["--s=a=b"] [])
    [{ baseDef with name := "s", arg := some (.switches ["--s"]), type := some .string }]

/-- A registry with one string option whose single declared switch is the
part of the token before its first '='. -/
def c3NDef (t : String) : NDef :=
  ⟨.switches [⟨t.data.takeWhile (fun d => d != '=')⟩], .undefined, .emptyArr, [],
   "opt", false, false, .string, []⟩

/-- The one-option registry for the split test. -/
def c3Opts (t : String) : AList (List NDef) := [("opt", [c3NDef t])]

/-- A state whose scan produces an unknown-option error. -/
def c4WitState : ParserState := mkParser (defaultPO ["--zzz"] []) []

/-- A handler returning a primitive symbol other than `next`, plus an
untouched second option. -/
def c5State : ParserState :=
  mkParser (defaultPO ["-x=vx", "-y=vy"] [])
    [{ baseDef with name := "x", arg := some (.switches ["-x"]),
                    type := some .string,
                    handler := [fun _ _ _ => .otherSym "stop"] },
     { baseDef with name := "y", arg := some (.switches ["-y"]), type := some .string }]

/-- required: true together with the falsy default "" (empty string). -/
def c6Def : OptionsDef :=
  { baseDef with name := "x", arg := some (.switches ["-x"]),
                 type := some .string, required := true, default := .str "" }

/-- The registry holding only that definition, with the requirement
satisfied on the command line. -/
def c6State : ParserState := mkParser (defaultPO ["-x", "val"] []) [c6Def]

/-- The boolean option of the vocabulary tests. -/
def flagNDef : NDef :=
  ⟨.switches ["--flag"], .undefined, .emptyArr, [], "flag", false, false, .boolean, []⟩

/-- A positional sink, so that unmatched tokens are captured rather than
erroring. -/
def restNDef : NDef :=
  ⟨.strArg "positional", .undefined, .emptyArr, [], "rest", false, false, .list, []⟩

/-- The registry for the boolean boundary tests. -/
def c7Opts : AList (List NDef) := [("flag", [flagNDef]), ("rest", [restNDef])]

/-- A handler answering {value: 'X', next: true}. -/
def h1X : Handler := fun _ _ _ => .result (.str "X") true

/-- A handler answering {value: 'Y', next: false}. -/
def h2Y : Handler := fun _ _ _ => .result (.str "Y") false

/-- A handler answering the `next` symbol (defer). -/
def h2Defer : Handler := fun _ _ _ => .nextSym

/-- A one-option registry with the given declared handler list. -/
def c8Opts (hs : List Handler) : AList (List NDef) :=
  [("x", [⟨.switches ["-x"], .undefined, .emptyArr, hs, "x", false, false, .string, []⟩])]

/-- The state of the defer-to-terminal counterexample: raw value "raw",
one chain entry with handlers [h1X, defer]. -/
def c8CEState : ParserState :=
  mkParser (defaultPO ["-x=raw"] [])
    [{ baseDef with name := "x", arg := some (.switches ["-x"]),
                    type := some .string, handler := [h1X, h2Defer] }]

/-- One string option with the given single switch, no other sources. -/
def c9NDef (name s : String) : NDef :=
  ⟨.switches [s], .undefined, .emptyArr, [], name, false, false, .string, []⟩

/-- Two distinct option names declaring the same switch. -/
def c9Opts (n1 n2 s : String) : AList (List NDef) :=
  [(n1, [c9NDef n1 s]), (n2, [c9NDef n2 s])]

/-- A non-required string option with a switch, an environment binding
and a (string) default. -/
def c10NDef (d : String) : NDef :=
  ⟨.switches ["-u"], .str d, .name "U", [], "u", false, false, .string, []⟩

/-- The corresponding registry state with argv ending right at the
switch and the environment variable present. -/
def c10State (d e : String) : ParserState :=
  ⟨[], [], false, true, [("u", [c10NDef d])], ["u"],
   defaultPO ["-u"] [("U", e)], none, []⟩

/-- The input definition whose registration yields c10NDef. -/
def c10Def (d : String) : OptionsDef :=
  { baseDef with name := "u", arg := some (.switches ["-u"]), env := some "U",
                 type := some .string, default := .str d }

/-- A registry carrying a permanent definition error (a nameless
option). -/
def c6WitState : ParserState :=
  mkParser (defaultPO [] []) [{ baseDef with arg := some (.switches ["-q"]) }]

/-- A definition with required and a truthy default. -/
def c6WitDef : OptionsDef :=
  { baseDef with name := "x", required := true, default := .str "d" }

/-! ## Cross-checks tying hand-written registries to registration -/

/-- The directly written c10 state is what the constructor produces (at a
concrete default/environment value). -/
theorem c10State_matches_registration :
    mkParser (defaultPO ["-u"] [("U", "x")]) [c10Def "dv"] = c10State "dv" "x" := rfl

/-- The directly written c7 registry is what registration of the two
definitions produces. -/
theorem c7Opts_matches_registration :
    (mkParser (defaultPO [] [])
      [{ baseDef with name := "flag", arg := some (.switches ["--flag"]),
                      type := some .boolean },
       { baseDef with name := "rest", arg := some (.strArg "positional") }]).options
      = c7Opts := rfl

/-- The directly written c3 registry, at the counterexample token, is
what registration produces. -/
theorem c3Opts_matches_registration :
    (mkParser (defaultPO [] [])
      [{ baseDef with name := "opt", arg := some (.switches ["--s"]),
                      type := some .string }]).options
      = c3Opts "--s=a=b" := rfl

/-! ## Claim theorems -/

/-- C1: the claim says a validator verdict on one option never prevents
the executor from validating the remaining option names.  The code's
`break validationSequence` sits on the OUTER loop: with two rejecting
validators only the first option's error is recorded, and with a
null-returning (accepting) validator on the first option the second
option's rejection is never seen at all — the parse then SUCCEEDS. -/
theorem c1_validator_verdict_halts_later_options :
    ((parseP c1RejectState).1.errorValues = [("a", "bad a")] ∧
      (parseP c1RejectState).2 = false) ∧
    ((parseP c1NullState).1.errorValues = [] ∧
      (parseP c1NullState).2 = true ∧
      (parseP c1NullState).1.values = [("a", .str "1"), ("b", .str "2")]) :=
  ⟨⟨rfl, rfl⟩, ⟨rfl, rfl, rfl⟩⟩

/-- C2: the claim says addOption after a completed parse() reruns the
cycle.  The source's isParsed flag is never assigned, so
reparseIfNecessary never fires: after a completed parse and an addOption
of a missing required option (default reparse behaviour), errors stay
empty and values stale, while an explicit parse() would fail. -/
theorem c2_addOption_never_reparses :
    c2AfterAdd.isParsed = false ∧
    c2AfterAdd.hasNewOptions = true ∧
    c2AfterAdd.errorValues = [] ∧
    c2AfterAdd.values = [("a", .str "v")] ∧
    (parseP c2AfterAdd).2 = false :=
  ⟨rfl, rfl, rfl, rfl, rfl⟩

/-- C3 counterexample: the claim says the token '--s=a=b' records the
inline value 'a=b'; the scanner records 'b' (the greedy `/.*=/` strips
through the LAST '='). -/
theorem c3_counterexample :
    (parseP c3CEState).1.values = [("s", .str "b")] ∧
    JSValue.str "b" ≠ JSValue.str "a=b" :=
  ⟨rfl, by simp⟩

/-- C5: the claim says any handler return that is neither the defer
symbol nor a well-formed result records a handler-protocol error and is
never silently stored.  A primitive symbol other than `next` escapes the
isSymbolObject guard (which detects only boxed Symbol objects), so the
executor stores undefined for that option, records no error, and the
parse succeeds. -/
theorem c5_unknown_symbol_stored_silently :
    (parseP c5State).2 = true ∧
    (parseP c5State).1.values = [("x", .undefined), ("y", .str "vy")] ∧
    (parseP c5State).1.errorValues = [] :=
  ⟨rfl, rfl, rfl⟩

/-- C6 counterexample: the claim says required together with a default of
any value (including falsy ones) records a DefinitionError.  With the
falsy default "" the truthiness test `def.required && def.default` does
not fire: no error is recorded and a parse with the requirement
satisfied succeeds. -/
theorem c6_counterexample :
    c6Def.required = true ∧
    jsTruthy c6Def.default = false ∧
    c6State.normalizationErrors = [] ∧
    (parseP c6State).2 = true ∧
    (parseP c6State).1.values = [("x", .str "val")] :=
  ⟨rfl, rfl, rfl, rfl, rfl⟩

/-- C8 counterexample: the claim says that when the second handler
defers, the implicit terminal handler stores 'X' (the value the first
handler passed on with continue).  The terminal handler lives in its own
chain entry and every entry re-seeds its current value from the raw map,
so the stored value is the raw "raw", not "X". -/
theorem c8_counterexample :
    (parseP c8CEState).1.values = [("x", .str "raw")] ∧
    JSValue.str "raw" ≠ JSValue.str "X" :=
  ⟨rfl, by simp⟩

/-- C8 (amended): within one chain entry a {value, continue:true} result
feeds the next handler, so [h1 to X-continue, h2 to Y-stop] stores 'Y';
but the current value is re-seeded from the raw map at every chain-entry
boundary, so when h2 defers, the implicit terminal entry stores the raw
value (not 'X'); with zero declared handlers the terminal entry still
stores the raw value, so every option receives a final stored value. -/
theorem c8_amended_entry_reseeding (v : JSValue) :
    handleOptionValues (c8Opts [h1X, h2Y]) (defaultPO [] []) ["x"] [("x", v)] [] []
      = ([], [("x", .str "Y")]) ∧
    handleOptionValues (c8Opts [h1X, h2Defer]) (defaultPO [] []) ["x"] [("x", v)] [] []
      = ([], [("x", v)]) ∧
    handleOptionValues (c8Opts []) (defaultPO [] []) ["x"] [("x", v)] [] []
      = ([], [("x", v)]) :=
  ⟨rfl, rfl, rfl⟩

/-- C10: a matched non-boolean switch that is the final token stores
undefined for that option without failing: for a non-required
string-typed option — here with BOTH an environment binding present in
the environment and a declared default, both of which are skipped
because the key already exists — the parse succeeds and the resolved
value is undefined.  Holds for every default and environment value. -/
theorem c10_trailing_switch_stores_undefined (d e : String) :
    (parseP (c10State d e)).2 = true ∧
    (parseP (c10State d e)).1.values = [("u", .undefined)] ∧
    (parseP (c10State d e)).1.normalizedValues = some [("u", .undefined)] ∧
    (parseP (c10State d e)).1.errorValues = [] :=
  ⟨rfl, rfl, rfl, rfl⟩

/-! ## Map lemmas -/

theorem hasOwnK_eq_any {α : Type} (m : AList α) (k : String) :
    hasOwnK m k = m.any (fun p => p.1 == k) := by
  induction m with
  | nil => rfl
  | cons p ps ih =>
    simp only [hasOwnK, List.find?, List.any_cons] at *
    cases hp : (p.1 == k) with
    | true => simp [hp]
    | false => simpa [hp] using ih

theorem any_key_map_set {α : Type} (k k2 : String) (v : α) :
    ∀ m : AList α,
      (m.map (fun p => if p.1 == k2 then (k2, v) else p)).any (fun p => p.1 == k)
        = m.any (fun p => p.1 == k) := by
  intro m
  induction m with
  | nil => rfl
  | cons p ps ih =>
    simp only [List.map_cons, List.any_cons, ih]
    cases hp : (p.1 == k2) with
    | true =>
      have hk : p.1 = k2 := eq_of_beq hp
      simp [hk]
    | false => simp [hp]

theorem hasOwnK_setk {α : Type} (m : AList α) (k k2 : String) (v : α) :
    hasOwnK (setk m k2 v) k = ((k2 == k) || hasOwnK m k) := by
  simp only [setk]
  split
  · next h =>
    rw [hasOwnK_eq_any, any_key_map_set, ← hasOwnK_eq_any]
    cases hk : (k2 == k) with
    | true =>
      have : k2 = k := eq_of_beq hk
      subst this
      simp [h]
    | false => simp
  · next h =>
    rw [hasOwnK_eq_any, List.any_append, ← hasOwnK_eq_any]
    simp [Bool.or_comm]

theorem setk_ne_nil {α : Type} (m : AList α) (k : String) (v : α) :
    setk m k v ≠ [] := by
  simp only [setk]
  split
  · next h =>
    intro hc
    rw [List.map_eq_nil_iff] at hc
    subst hc
    simp [hasOwnK] at h
  · simp

theorem isEmpty_false_of_ne {α : Type} (l : List α) (h : l ≠ []) :
    l.isEmpty = false := by
  cases l with
  | nil => exact absurd rfl h
  | cons a t => rfl

theorem ne_nil_of_isEmpty_false {α : Type} (l : List α) (h : l.isEmpty = false) :
    l ≠ [] := by
  cases l with
  | nil => simp at h
  | cons a t => simp

/-! ## Error maps never shrink across the pipeline stages -/

theorem checkOptions_ne (o : AList (List NDef)) (ev : AList String) (h : ev ≠ []) :
    checkOptions o ev ≠ [] := by
  simp only [checkOptions]
  split
  · exact setk_ne_nil _ _ _
  · split
    · exact setk_ne_nil _ _ _
    · exact h

theorem scanLoop_ne (o : AList (List NDef)) (argv : List String) :
    ∀ fuel i nv ev, ev ≠ [] → (scanLoop o argv fuel i nv ev).2.1 ≠ [] := by
  intro fuel
  induction fuel with
  | zero => exact fun i nv ev h => h
  | succ n ih =>
    intro i nv ev h
    simp only [scanLoop]
    split
    · exact h
    · split
      · exact h
      · apply ih
        split
        · exact h
        · split
          · exact h
          · exact setk_ne_nil _ _ _

theorem envPass_ne (po : ParserOptions) :
    ∀ entries nv ev, ev ≠ [] → (envPass po entries nv ev).2 ≠ [] := by
  intro entries
  induction entries with
  | nil => exact fun nv ev h => h
  | cons p rest ih =>
    intro nv ev h
    obtain ⟨key, defs⟩ := p
    cases defs with
    | nil => exact ih _ _ h
    | cons d ds =>
      simp only [envPass]
      split
      · exact ih _ _ h
      · apply ih
        split
        · exact setk_ne_nil _ _ _
        · exact h

theorem coerceOne_ne (o : AList (List NDef)) (po : ParserOptions)
    (acc : RawMap × AList String) (key : String) (h : acc.2 ≠ []) :
    (coerceOne o po acc key).2 ≠ [] := by
  simp only [coerceOne]
  repeat' split
  all_goals first
    | exact h
    | exact setk_ne_nil _ _ _

theorem coercePass_ne (o : AList (List NDef)) (po : ParserOptions) :
    ∀ (keys : List String) (acc : RawMap × AList String), acc.2 ≠ [] →
      (keys.foldl (coerceOne o po) acc).2 ≠ [] := by
  intro keys
  induction keys with
  | nil => exact fun acc h => h
  | cons k ks ih =>
    intro acc h
    exact ih _ (coerceOne_ne o po acc k h)

theorem normalizeOptionValues_errs_ne (o : AList (List NDef)) (po : ParserOptions)
    (ev : AList String) (h : ev ≠ []) :
    (normalizeOptionValues o po ev).1 = none ∧ (normalizeOptionValues o po ev).2 ≠ [] := by
  simp only [normalizeOptionValues, coercePass]
  have hs : ∀ (r : RawMap × AList String), r.2 ≠ [] →
      ((r.1.map (fun p => p.1)).foldl (coerceOne o po) r).2 ≠ [] :=
    fun r hr => coercePass_ne o po _ _ hr
  split
  · next hargv =>
    have h1 := envPass_ne po o [] ev h
    have h2 := hs _ h1
    rw [isEmpty_false_of_ne _ h2]
    exact ⟨rfl, h2⟩
  · next hargv =>
    have h0 := scanLoop_ne o po.argv (po.argv.length + 1) 0 [] ev h
    have h1 := envPass_ne po o
      (trailingPass o po.argv (scanLoop o po.argv (po.argv.length + 1) 0 [] ev).2.2
        (scanLoop o po.argv (po.argv.length + 1) 0 [] ev).1)
      (scanLoop o po.argv (po.argv.length + 1) 0 [] ev).2.1 h0
    have h2 := hs _ h1
    rw [isEmpty_false_of_ne _ h2]
    exact ⟨rfl, h2⟩

theorem parseP_false_of_normErrs (st : ParserState)
    (h : st.normalizationErrors ≠ []) : (parseP st).2 = false := by
  have h1 := checkOptions_ne st.options _ h
  have h2 := normalizeOptionValues_errs_ne st.options st.parserOptions _ h1
  simp only [parseP]
  split
  · next nv heq => rw [h2.1] at heq; cases heq
  · next heq =>
    simp [hasErrorsL, isEmpty_false_of_ne _ h2.2]

theorem eq_nil_of_isEmpty {α : Type} (l : List α) (h : l.isEmpty = true) :
    l = [] := by
  cases l with
  | nil => rfl
  | cons a t => simp at h

theorem normalizeOptionValues_none_iff (o : AList (List NDef)) (po : ParserOptions)
    (ev : AList String) :
    (normalizeOptionValues o po ev).1 = none ↔ (normalizeOptionValues o po ev).2 ≠ [] := by
  simp only [normalizeOptionValues]
  split <;> split <;> simp_all [List.isEmpty_iff]

/-- C4: if any error exists after the scan/coercion stage (permanent
definition errors re-surfaced that cycle included), the raw value map is
discarded whole (normalizedValues becomes none) and the resolved values
stay empty; conversely a non-empty resolved map can only arise in a
cycle whose scan/coercion stage produced no error at all. -/
theorem c4_raw_map_discarded_on_errors (st : ParserState) :
    ((normalizeOptionValues st.options st.parserOptions
        (checkOptions st.options st.normalizationErrors)).2 ≠ [] →
      (normalizeOptionValues st.options st.parserOptions
        (checkOptions st.options st.normalizationErrors)).1 = none ∧
      (parseP st).1.values = [] ∧ (parseP st).1.normalizedValues = none) ∧
    ((parseP st).1.values ≠ [] →
      (normalizeOptionValues st.options st.parserOptions
        (checkOptions st.options st.normalizationErrors)).2 = [] ∧
      (parseP st).1.normalizedValues ≠ none) := by
  cases hnv : (normalizeOptionValues st.options st.parserOptions
      (checkOptions st.options st.normalizationErrors)).1 with
  | none =>
    constructor
    · intro h
      refine ⟨rfl, ?_, ?_⟩ <;> simp [parseP, hnv]
    · intro hv
      exfalso
      apply hv
      simp [parseP, hnv]
  | some nv =>
    have h2 : (normalizeOptionValues st.options st.parserOptions
        (checkOptions st.options st.normalizationErrors)).2 = [] := by
      by_contra hc
      rw [(normalizeOptionValues_none_iff _ _ _).mpr hc] at hnv
      cases hnv
    constructor
    · intro h
      exact absurd h2 h
    · intro hv
      refine ⟨h2, ?_⟩
      simp [parseP, hnv]

/-- Witness for C4 at a registry whose scan produces an unknown-option
error. -/
theorem c4_witness :
    (normalizeOptionValues c4WitState.options c4WitState.parserOptions
      (checkOptions c4WitState.options c4WitState.normalizationErrors)).1 = none ∧
    (parseP c4WitState).1.values = [] ∧
    (parseP c4WitState).1.normalizedValues = none :=
  (c4_raw_map_discarded_on_errors c4WitState).1 (by decide)

/-! ## C6: the required+default registration check -/

theorem nodChecks_required_truthy_default (e : AList String) (d : OptionsDef)
    (h1 : d.required = true) (h2 : jsTruthy d.default = true) :
    hasOwnK (nodChecks e d) (errKey d) = true := by
  simp only [nodChecks]
  rw [if_pos (show d.required = true ∧ jsTruthy d.default = true from ⟨h1, h2⟩)]
  simp [apply_ite (fun m : AList String => hasOwnK m (errKey d)), hasOwnK_setk]

theorem nodDefaultCheck_preserves (po : ParserOptions) (e : AList String)
    (d : OptionsDef) (k : String) (h : hasOwnK e k = true) :
    hasOwnK (nodDefaultCheck po e d).1 k = true := by
  simp only [nodDefaultCheck]
  repeat' split
  all_goals simp_all [hasOwnK_setk]

/-- C6 (amended): registration records a DefinitionError for a
required option only when its declared default is truthy; and a registry
whose permanent error map is non-empty fails every subsequent parse.
(The counterexample shows a falsy default — false, 0 or "" — records
nothing and the parse can succeed.) -/
theorem c6_amended_required_truthy_default :
    (∀ (po : ParserOptions) (e : AList String) (d : OptionsDef),
      d.required = true → jsTruthy d.default = true →
        hasOwnK (normalizeOptionDef po e d).1 (errKey d) = true) ∧
    (∀ st : ParserState, st.normalizationErrors ≠ [] → (parseP st).2 = false) := by
  constructor
  · intro po e d h1 h2
    simp only [normalizeOptionDef]
    exact nodDefaultCheck_preserves po _ d _ (nodChecks_required_truthy_default e d h1 h2)
  · exact parseP_false_of_normErrs

/-- Witness for C6: a concrete required definition with a truthy default
is flagged, and a registry carrying a permanent error fails parse(). -/
theorem c6_witness :
    hasOwnK (normalizeOptionDef (defaultPO [] []) [] c6WitDef).1 "x" = true ∧
    (parseP c6WitState).2 = false :=
  ⟨(c6_amended_required_truthy_default).1 (defaultPO [] []) [] c6WitDef rfl rfl,
   (c6_amended_required_truthy_default).2 c6WitState (by decide)⟩

/-! ## Character-level lemmas about the two regex replacements -/

theorem dropWhile_all {α : Type} (p : α → Bool) :
    ∀ l : List α, (∀ c ∈ l, p c = true) → l.dropWhile p = [] := by
  intro l
  induction l with
  | nil => intro _; rfl
  | cons c cs ih =>
    intro h
    rw [List.dropWhile_cons, if_pos (h c (List.mem_cons_self c cs))]
    exact ih (fun d hd => h d (List.mem_cons_of_mem _ hd))

theorem takeWhile_all {α : Type} (p : α → Bool) :
    ∀ l : List α, (∀ c ∈ l, p c = true) → l.takeWhile p = l := by
  intro l
  induction l with
  | nil => intro _; rfl
  | cons c cs ih =>
    intro h
    rw [List.takeWhile_cons, if_pos (h c (List.mem_cons_self c cs))]
    rw [ih (fun d hd => h d (List.mem_cons_of_mem _ hd))]

theorem replaceEqStarCh_eq_takeWhile :
    ∀ l : List Char, (∀ c ∈ l, isLineTerm c = false) → '=' ∈ l →
      replaceEqStarCh l = l.takeWhile (fun d => d != '=') := by
  intro l
  induction l with
  | nil => intro _ h; cases h
  | cons c cs ih =>
    intro hterm hmem
    simp only [replaceEqStarCh, List.takeWhile_cons]
    by_cases hc : c = '='
    · subst hc
      rw [if_pos (by simp), if_neg (by simp)]
      exact dropWhile_all _ cs
        (fun d hd => by simp [hterm d (List.mem_cons_of_mem _ hd)])
    · have hm : '=' ∈ cs := by
        rcases List.mem_cons.mp hmem with h | h
        · exact absurd h.symm hc
        · exact h
      rw [if_neg (by simp [hc]), if_pos (by simp [hc])]
      rw [ih (fun d hd => hterm d (List.mem_cons_of_mem _ hd)) hm]

theorem replaceStarEqCh_eq_dropThrough (l : List Char)
    (hterm : ∀ c ∈ l, isLineTerm c = false) (hmem : l.contains '=' = true) :
    replaceStarEqCh l = dropThroughLastEq l := by
  cases l with
  | nil => simp [List.contains] at hmem
  | cons c cs =>
    simp only [replaceStarEqCh]
    rw [takeWhile_all _ (c :: cs) (fun d hd => by simp [hterm d hd])]
    rw [if_pos hmem]
    simp [List.drop_length]

theorem takeWhile_ne_eq_length_lt :
    ∀ l : List Char, '=' ∈ l →
      (l.takeWhile (fun d => d != '=')).length < l.length := by
  intro l
  induction l with
  | nil => intro h; cases h
  | cons c cs ih =>
    intro hmem
    rw [List.takeWhile_cons]
    by_cases hc : c = '='
    · subst hc
      rw [if_neg (by simp)]
      simp
    · have hm : '=' ∈ cs := by
        rcases List.mem_cons.mp hmem with h | h
        · exact absurd h.symm hc
        · exact h
      rw [if_pos (by simp [hc])]
      simpa using ih hm

theorem strReplaceEqStar_eq (t : String)
    (hterm : ∀ c ∈ t.data, isLineTerm c = false) (hmem : '=' ∈ t.data) :
    strReplaceEqStar t = ⟨t.data.takeWhile (fun d => d != '=')⟩ := by
  simp only [strReplaceEqStar, replaceEqStarCh_eq_takeWhile t.data hterm hmem]

theorem strReplaceStarEq_eq (t : String)
    (hterm : ∀ c ∈ t.data, isLineTerm c = false) (hmem : '=' ∈ t.data) :
    strReplaceStarEq t = ⟨(t.data.reverse.takeWhile (fun d => d != '=')).reverse⟩ := by
  have hc : t.data.contains '=' = true := by
    simpa using List.elem_eq_true_of_mem hmem
  simp only [strReplaceStarEq, replaceStarEqCh_eq_dropThrough t.data hterm hc,
    dropThroughLastEq]

theorem takeWhile_str_ne (t : String) (hmem : '=' ∈ t.data) :
    (⟨t.data.takeWhile (fun d => d != '=')⟩ : String) ≠ t := by
  intro h
  have hl := congrArg (fun s : String => s.data.length) h
  simp only at hl
  exact absurd hl (Nat.ne_of_lt (takeWhile_ne_eq_length_lt t.data hmem))

theorem ne_ddash_of_mem_eq (t : String) (hmem : '=' ∈ t.data) : t ≠ "--" := by
  intro h
  subst h
  exact absurd hmem (by decide)

theorem switches_beq_strArg (l : List String) (s : String) :
    (ArgSpecRaw.switches l == ArgSpecRaw.strArg s) = false := rfl

/-- C3 (amended): an ordinary token containing '=' is split
asymmetrically: the switch part matched against the first chain entry's
switch list is the text before the FIRST '=', but the recorded inline
value of a matched non-boolean option is the text after the LAST '='
(so '--s=a=b' yields the value 'b', not 'a=b').  Stated for tokens free
of line terminators (the regex dot stops at those). -/
theorem c3_amended_split_behaviour (t : String)
    (hterm : ∀ c ∈ t.data, isLineTerm c = false) (hmem : '=' ∈ t.data) :
    strReplaceEqStar t = ⟨t.data.takeWhile (fun d => d != '=')⟩ ∧
    normalizeOptionValues (c3Opts t) (defaultPO [t] []) []
      = (some [("opt",
          .str ⟨(t.data.reverse.takeWhile (fun d => d != '=')).reverse⟩)], []) := by
  have h1 := strReplaceEqStar_eq t hterm hmem
  have h2 := strReplaceStarEq_eq t hterm hmem
  have h3 : ¬(t = "--") := ne_ddash_of_mem_eq t hmem
  have h4 : ¬(t = (⟨t.data.takeWhile (fun d => d != '=')⟩ : String)) :=
    (takeWhile_str_ne t hmem).symm
  refine ⟨h1, ?_⟩
  simp [normalizeOptionValues, defaultPO, c3Opts, c3NDef, scanLoop, scanMatchStep,
    argIncludes, jsIndex, trailingPass, doubleDashKey, positionalKey, truthyKey,
    envPass, coercePass, coerceOne, getk, hasOwnK, setk, switches_beq_strArg,
    h1, h2, h3, h4]

/-- Witness for C3 at the token '--s=a=b': the switch part is '--s' and
the recorded value is 'b'. -/
theorem c3_amended_witness :
    strReplaceEqStar "--s=a=b" = "--s" ∧
    normalizeOptionValues (c3Opts "--s=a=b") (defaultPO ["--s=a=b"] []) []
      = (some [("opt", .str "b")], []) := by
  have h := c3_amended_split_behaviour "--s=a=b" (by decide) (by decide)
  exact ⟨h.1.trans rfl, h.2.trans rfl⟩

/-! ## Further list lemmas for the symbolic scan proofs -/

theorem takeWhile_append_all {α : Type} (p : α → Bool) :
    ∀ (l1 l2 : List α), (∀ c ∈ l1, p c = true) →
      (l1 ++ l2).takeWhile p = l1 ++ l2.takeWhile p := by
  intro l1
  induction l1 with
  | nil => intro l2 _; rfl
  | cons c cs ih =>
    intro l2 h
    rw [List.cons_append, List.takeWhile_cons, if_pos (h c (List.mem_cons_self c cs))]
    rw [ih l2 (fun d hd => h d (List.mem_cons_of_mem _ hd))]
    rfl

theorem replaceEqStarCh_of_not_mem :
    ∀ l : List Char, '=' ∉ l → replaceEqStarCh l = l := by
  intro l
  induction l with
  | nil => intro _; rfl
  | cons c cs ih =>
    intro h
    have hc : ¬(c = '=') := fun hc => h (hc ▸ List.mem_cons_self c cs)
    simp only [replaceEqStarCh]
    rw [if_neg (by simp [hc])]
    rw [ih (fun hm => h (List.mem_cons_of_mem _ hm))]

theorem strReplaceEqStar_of_not_mem (t : String) (h : '=' ∉ t.data) :
    strReplaceEqStar t = t := by
  simp only [strReplaceEqStar, replaceEqStarCh_of_not_mem t.data h]

/-- The default vocabularies are disjoint: a falsey word is not truthy. -/
theorem falsey_not_truthy (x : String) (h : FALSEY_STRINGS.contains x = true) :
    TRUTHY_STRINGS.contains x = false := by
  have hm : x ∈ FALSEY_STRINGS := by simpa using h
  fin_cases hm <;> decide

/-- C7: with the default vocabularies, a boolean option as a bare switch
resolves to true without consuming the following token (which here falls
to the positional sink instead); an inline value whose lowercase form is
in the falsey vocabulary resolves to false; and an inline value whose
lowercase form is in neither vocabulary is a coercion error for that
option, discarding the raw map.  v ranges over all inline values free of
'=' and line terminators. -/
theorem c7_boolean_switch_and_vocabulary (v : String)
    (hterm : ∀ c ∈ v.data, isLineTerm c = false) (hne : '=' ∉ v.data) :
    normalizeOptionValues c7Opts (defaultPO ["--flag", "x"] []) []
      = (some [("flag", .bool true), ("rest", .list [.str "x"])], []) ∧
    (FALSEY_STRINGS.contains (jsToLower v) = true →
      normalizeOptionValues c7Opts (defaultPO ["--flag=" ++ v] []) []
        = (some [("flag", .bool false)], [])) ∧
    (TRUTHY_STRINGS.contains (jsToLower v) = false →
      FALSEY_STRINGS.contains (jsToLower v) = false →
      normalizeOptionValues c7Opts (defaultPO ["--flag=" ++ v] []) []
        = (none,
           [("flag", "Could not parse boolean argument \"flag\" value \"" ++ v ++ "\"")])) := by
  have hdata : ("--flag=" ++ v).data
      = '-' :: '-' :: 'f' :: 'l' :: 'a' :: 'g' :: '=' :: v.data := rfl
  have hterm' : ∀ c ∈ ("--flag=" ++ v).data, isLineTerm c = false := by
    intro c hc
    rw [hdata] at hc
    simp only [List.mem_cons] at hc
    rcases hc with rfl | rfl | rfl | rfl | rfl | rfl | rfl | hc
    · rfl
    · rfl
    · rfl
    · rfl
    · rfl
    · rfl
    · rfl
    · exact hterm c hc
  have hmem' : '=' ∈ ("--flag=" ++ v).data := by
    rw [hdata]; simp
  have hA : strReplaceEqStar ("--flag=" ++ v) = "--flag" := by
    rw [strReplaceEqStar_eq _ hterm' hmem', hdata]
    exact rfl
  have hB : strReplaceStarEq ("--flag=" ++ v) = v := by
    rw [strReplaceStarEq_eq _ hterm' hmem']
    rw [show ("--flag=" ++ v).data = ['-', '-', 'f', 'l', 'a', 'g', '='] ++ v.data from rfl]
    rw [List.reverse_append]
    rw [show (['-', '-', 'f', 'l', 'a', 'g', '='] : List Char).reverse
        = ['=', 'g', 'a', 'l', 'f', '-', '-'] from rfl]
    rw [takeWhile_append_all _ v.data.reverse _
      (fun c hc => by
        have hcm : c ∈ v.data := List.mem_reverse.mp hc
        have hcne : ¬(c = '=') := by intro hce; exact hne (hce ▸ hcm)
        simp [hcne])]
    simp
  have hC : ¬("--flag=" ++ v) = "--" := by
    intro h
    have hdl : ('-' :: '-' :: 'f' :: 'l' :: 'a' :: 'g' :: '=' :: v.data)
        = ("--" : String).data := by rw [← hdata, h]
    rw [show ("--" : String).data = ['-', '-'] from rfl] at hdl
    simp at hdl
  have hD : ¬("--flag=" ++ v) = "--flag" := by
    intro h
    have hdl : ('-' :: '-' :: 'f' :: 'l' :: 'a' :: 'g' :: '=' :: v.data).length
        = ("--flag" : String).data.length := by rw [← hdata, h]
    rw [show ("--flag" : String).data.length = 6 from rfl] at hdl
    simp [List.length_cons] at hdl
  refine ⟨rfl, ?_, ?_⟩
  · intro hf
    have ht := falsey_not_truthy _ hf
    have hfm : jsToLower v ∈ FALSEY_STRINGS := by simpa using hf
    have htm : jsToLower v ∉ TRUTHY_STRINGS := by simpa using ht
    simp [normalizeOptionValues, defaultPO, c7Opts, flagNDef, restNDef, scanLoop,
      scanMatchStep, argIncludes, jsIndex, trailingPass, doubleDashKey, positionalKey,
      truthyKey, envPass, coercePass, coerceOne, getk, hasOwnK, setk, chSub, chStarts,
      jsTruthy, envTruthyF, envKeyF, hA, hB, hC, hD, hfm, htm]
  · intro ht hf
    have hfm : jsToLower v ∉ FALSEY_STRINGS := by simpa using hf
    have htm : jsToLower v ∉ TRUTHY_STRINGS := by simpa using ht
    simp [normalizeOptionValues, defaultPO, c7Opts, flagNDef, restNDef, scanLoop,
      scanMatchStep, argIncludes, jsIndex, trailingPass, doubleDashKey, positionalKey,
      truthyKey, envPass, coercePass, coerceOne, getk, hasOwnK, setk, chSub, chStarts,
      jsTruthy, envTruthyF, envKeyF, hA, hB, hC, hD, hfm, htm]

/-- Witness for C7 at v = "banana" (in neither vocabulary; also
instantiates the bare-switch conjunct). -/
theorem c7_witness :
    normalizeOptionValues c7Opts (defaultPO ["--flag", "x"] []) []
      = (some [("flag", .bool true), ("rest", .list [.str "x"])], []) ∧
    normalizeOptionValues c7Opts (defaultPO ["--flag=" ++ "banana"] []) []
      = (none,
         [("flag", "Could not parse boolean argument \"flag\" value \"" ++ "banana" ++ "\"")]) := by
  have h := c7_boolean_switch_and_vocabulary "banana" (by decide) (by decide)
  exact ⟨h.1, h.2.2 (by decide) (by decide)⟩

/-- C9: when two option names both declare the same switch, one token
carrying that switch is recorded for both; with no inline value and
string-typed options, the pre-increment of the scan index inside the
per-option loop makes each match consume its own following token, so the
second option receives the token after the one the first consumed. -/
theorem c9_shared_switch_double_consumption (n1 n2 s a b : String)
    (hne : n1 ≠ n2) (hs1 : ¬(s = "--")) (hs2 : '=' ∉ s.data) :
    normalizeOptionValues (c9Opts n1 n2 s) (defaultPO [s, a, b] []) []
      = (some [(n1, .str a), (n2, .str b)], []) := by
  have hA : strReplaceEqStar s = s := strReplaceEqStar_of_not_mem s hs2
  have hne' : n2 ≠ n1 := Ne.symm hne
  have hb : (n1 == n2) = false := beq_eq_false_iff_ne.mpr hne
  have hb' : (n2 == n1) = false := beq_eq_false_iff_ne.mpr hne'
  simp [normalizeOptionValues, defaultPO, c9Opts, c9NDef, scanLoop, scanMatchStep,
    argIncludes, jsIndex, trailingPass, doubleDashKey, positionalKey, truthyKey,
    envPass, coercePass, coerceOne, getk, hasOwnK, setk, switches_beq_strArg,
    hA, hs1, hb, hb', hne, hne']

/-- Witness for C9 at concrete names, switch and tokens. -/
theorem c9_witness :
    normalizeOptionValues (c9Opts "n1" "n2" "-x") (defaultPO ["-x", "va", "vb"] []) []
      = (some [("n1", .str "va"), ("n2", .str "vb")], []) :=
  c9_shared_switch_double_consumption "n1" "n2" "-x" "va" "vb"
    (by decide) (by decide) (by decide)

end CliParser
